import Mathlib

/-!
Verification of the 4Runr MCP client node (`src/nodes/McpClient.node.ts`).

The file shallowly embeds the two pieces of logic of the connector:

* the SSE discovery flow of the first `execute` variant (promise executor,
  timeout timer, `onopen` / `onerror` callbacks and the `tools` event
  listener, source lines 103-203), modelled as a pure step function over an
  explicit state that records the promise settlement, the timer flags and the
  number of `eventSource.close()` calls;
* the `executeToolCall` method (source lines 210-279), modelled as a pure
  function from the arguments, the credentials and the server's behaviour to
  the outcome together with the list of HTTP POST requests issued.

JavaScript runtime values are embedded as the inductive `JsVal`; the dynamic
operations the source uses (truthiness, `typeof`, property access, optional
chaining, `Array.isArray`, `String.prototype.includes`, string coercion and
object spread) are each given a small definitional counterpart.  `JSON.parse`
is treated as an oracle attached to the input: event payloads and raw header
strings carry the parse outcome (`Except String JsVal`) they would produce.
-/

namespace Mcp

/-- JavaScript runtime values: everything `JSON.parse` can produce, plus
`undefined`, which arises from missing-property access. -/
inductive JsVal where
  | undefined
  | null
  | bool (b : Bool)
  | num (n : Int)
  | str (s : String)
  | arr (elems : List JsVal)
  | obj (fields : List (String × JsVal))

/-- JavaScript truthiness of a value. -/
def JsVal.truthy : JsVal → Bool
  | .undefined => false
  | .null => false
  | .bool b => b
  | .num n => n != 0
  | .str s => s != ""
  | .arr _ => true
  | .obj _ => true

/-- JavaScript `typeof` operator. -/
def JsVal.typeofJs : JsVal → String
  | .undefined => "undefined"
  | .null => "object"
  | .bool _ => "boolean"
  | .num _ => "number"
  | .str _ => "string"
  | .arr _ => "object"
  | .obj _ => "object"

/-- Property access `v.k`: a TypeError on `null`/`undefined` (modelled as
`Except.error` carrying the runtime message), `undefined` when the property is
missing, the stored value otherwise.  Objects coming from `JSON.parse` have
unique keys, so first-match lookup is the JS semantics. -/
def JsVal.getProp : JsVal → String → Except String JsVal
  | .undefined, k => .error ("Cannot read properties of undefined (reading " ++ k ++ ")")
  | .null, k => .error ("Cannot read properties of null (reading " ++ k ++ ")")
  | .obj fs, k => .ok ((fs.lookup k).getD .undefined)
  | _, _ => .ok .undefined

/-- Total property access, as produced by optional chaining `v?.k` (and equal
to `getProp` on non-nullish values). -/
def JsVal.propOr : JsVal → String → JsVal
  | .obj fs, k => (fs.lookup k).getD .undefined
  | _, _ => .undefined

/-- The `Array.isArray` test. -/
def JsVal.isArrayJs : JsVal → Bool
  | .arr _ => true
  | _ => false

/-- Elements of an array value (only used after an `Array.isArray` guard). -/
def JsVal.elems : JsVal → List JsVal
  | .arr xs => xs
  | _ => []

mutual
/-- JavaScript string coercion, as performed by `+=` and template literals. -/
def JsVal.toDisplayString : JsVal → String
  | .undefined => "undefined"
  | .null => "null"
  | .bool true => "true"
  | .bool false => "false"
  | .num n => toString n
  | .str s => s
  | .arr xs => JsVal.listDisplay xs
  | .obj _ => "[object Object]"
/-- Comma join used by `Array.prototype.toString`. -/
def JsVal.listDisplay : List JsVal → String
  | [] => ""
  | [x] => JsVal.toDisplayString x
  | x :: y :: rest => JsVal.toDisplayString x ++ "," ++ JsVal.listDisplay (y :: rest)
end

/-- Bool-valued substring containment on character lists (the semantics of
JavaScript `String.prototype.includes`): the needle occurs contiguously in the
haystack. -/
def charsContain (needle : List Char) : List Char → Bool
  | [] => needle.isEmpty
  | c :: rest => needle.isPrefixOf (c :: rest) || charsContain needle rest

/-- JavaScript `x.includes(t)` for a string argument `t`: substring test on
strings, SameValueZero element test on arrays, a TypeError otherwise. -/
def jsIncludes (v : JsVal) (t : String) : Except String Bool :=
  match v with
  | .str s => .ok (charsContain t.toList s.toList)
  | .arr xs => .ok (xs.any (fun x => match x with | .str s => s == t | _ => false))
  | .undefined => .error "Cannot read properties of undefined (reading includes)"
  | .null => .error "Cannot read properties of null (reading includes)"
  | _ => .error "includes is not a function"

/-- Tool Definition as built by the `tools` event mapping (source lines
177-184); in the source the record fields simply pass the JS values through. -/
structure ToolDefinition where
  name : JsVal
  description : JsVal
  parameters : JsVal

/-- One element of the `parsed.tools.map(...)` step (source lines 177-184):
read `name`, `description` and `parameters` off the element (a TypeError on a
nullish element propagates), defaulting falsy `parameters` to an empty
object. -/
def mapTool (tool : JsVal) : Except String ToolDefinition := do
  let n ← tool.getProp "name"
  let d ← tool.getProp "description"
  let p ← tool.getProp "parameters"
  pure { name := n, description := d, parameters := if p.truthy then p else .obj [] }

/-- Total form of `mapTool`, agreeing with it on non-nullish elements. -/
def mapToolPure (tool : JsVal) : ToolDefinition :=
  { name := tool.propOr "name"
    description := tool.propOr "description"
    parameters := if (tool.propOr "parameters").truthy then tool.propOr "parameters" else .obj [] }

/-- The `Array.prototype.map` call of the listener: elements are processed
left to right and a thrown TypeError aborts the whole map. -/
def mapToolsE : List JsVal → Except String (List ToolDefinition)
  | [] => .ok []
  | x :: rest => do
    let t ← mapTool x
    let rest' ← mapToolsE rest
    pure (t :: rest')

/-- The filter step `tools.filter(tool => tool.name.includes(toolType))`
(source line 189): the callback runs left to right and a thrown TypeError
aborts the filter. -/
def filterToolsE (toolType : String) : List ToolDefinition → Except String (List ToolDefinition)
  | [] => .ok []
  | t :: rest => do
    let b ← jsIncludes t.name toolType
    let rest' ← filterToolsE toolType rest
    pure (if b then t :: rest' else rest')

/-- Body of the `tools` event listener of the first `execute` variant (source
lines 163-201) as a pure computation from the `JSON.parse` outcome of
`event.data`: either the tool list passed to `resolve`, or the `message` of
the error reaching the `catch` block. -/
def processTools (toolType : String) (data : Except String JsVal) :
    Except String (List ToolDefinition) := do
  let parsed ← data
  let toolsVal ← parsed.getProp "tools"
  if !toolsVal.truthy || !toolsVal.isArrayJs then
    throw "Invalid tools data: missing or invalid tools array"
  else
    let tools ← mapToolsE toolsVal.elems
    if toolType != "all" then filterToolsE toolType tools else pure tools

/-- A settled outcome of the discovery promise; the four constructors are the
four `resolve`/`reject` call sites of the first `execute` variant, each
carrying the message it was built with. -/
inductive Settlement where
  | resolved (tools : List ToolDefinition)
  | timedOut (msg : String)
  | connError (msg : String)
  | eventError (msg : String)

/-- Event-loop callbacks that can run inside the discovery promise executor:
the timeout timer firing, `onopen`, `onerror` (with the underlying error
message), and a `tools` event whose `data` field parses to the given
outcome. -/
inductive Ev where
  | timerFired
  | onOpen
  | onError (msg : String)
  | toolsEvent (data : Except String JsVal)

/-- State of one discovery call: whether `setTimeout` was installed, whether
`clearTimeout` ran (or the timer already fired), the promise settlement (a
promise settles at most once; later calls are no-ops), and how many times
`eventSource.close()` was invoked. -/
structure DiscoverState where
  timerArmed : Bool
  timerCancelled : Bool
  settled : Option Settlement
  closeCalls : Nat

/-- Promise settlement: only the first `resolve`/`reject` takes effect. -/
def DiscoverState.settle (st : DiscoverState) (s : Settlement) : DiscoverState :=
  match st.settled with
  | some _ => st
  | none => { st with settled := some s }

/-- One `eventSource.close()` call. -/
def DiscoverState.closeES (st : DiscoverState) : DiscoverState :=
  { st with closeCalls := st.closeCalls + 1 }

/-- Whether `if (sseTimeout)` installs the timer: JS truthiness of the
configured number (absent and `0` are falsy). -/
def timerArmedFor : Option Int → Bool
  | none => false
  | some n => n != 0

/-- Message of the timeout rejection (source line 139). -/
def timeoutMsg (n : Int) : String :=
  "SSE connection timed out after " ++ toString n ++ "ms"

/-- One event-loop callback of the first `execute` variant (source lines
116-202).  The timer callback closes the source and rejects, and a fired
timer never fires again; `onopen` runs `clearTimeout` when a timer was
installed; `onerror` closes and rejects; the `tools` listener closes and then
resolves or rejects according to `processTools`. -/
def step (sseTimeout : Option Int) (toolType : String) (st : DiscoverState) : Ev → DiscoverState
  | .timerFired =>
    if st.timerArmed && !st.timerCancelled then
      { (st.closeES.settle (.timedOut (timeoutMsg (sseTimeout.getD 0)))) with timerCancelled := true }
    else st
  | .onOpen =>
    if st.timerArmed then { st with timerCancelled := true } else st
  | .onError msg =>
    st.closeES.settle (.connError ("Failed to connect to SSE endpoint: " ++ msg))
  | .toolsEvent data =>
    match processTools toolType data with
    | .ok tools => st.closeES.settle (.resolved tools)
    | .error msg => st.closeES.settle (.eventError ("Failed to process tools event: " ++ msg))

/-- State of the promise executor right after it starts: timer installed iff
`sseTimeout` is truthy, nothing settled, no close calls. -/
def initState (sseTimeout : Option Int) : DiscoverState :=
  { timerArmed := timerArmedFor sseTimeout
    timerCancelled := false
    settled := none
    closeCalls := 0 }

/-- Run the discovery promise executor of the first variant against a
sequence of event-loop callbacks. -/
def runDiscover (sseTimeout : Option Int) (toolType : String) (evs : List Ev) : DiscoverState :=
  evs.foldl (step sseTimeout toolType) (initState sseTimeout)

/-- A configured `headers` credential value, carrying the `JSON.parse`
outcome it would produce when it is a raw string. -/
inductive HeadersValue where
  | str (raw : String) (parsed : Except String JsVal)
  | obj (v : JsVal)

/-- JS truthiness of the configured headers value, as tested by
`if (headers)`. -/
def HeadersValue.truthy : HeadersValue → Bool
  | .str raw _ => raw != ""
  | .obj v => v.truthy

/-- Header handling of the first `execute` variant (source lines 120-129):
a parse failure throws a NodeOperationError inside the promise executor,
rejecting the whole discover call.  On success, returns the headers attached
to the EventSource options, if any. -/
def discoverHeadersV1 : Option HeadersValue → Except String (Option JsVal)
  | none => .ok none
  | some h =>
    if h.truthy then
      match h with
      | .str _ pr =>
        match pr with
        | .ok v => .ok (some v)
        | .error m => .error ("Failed to parse headers: " ++ m)
      | .obj v => .ok (some v)
    else .ok none

/-- Header handling of the second `execute` variant (source lines 392-400):
a parse failure is logged via `console.error` and the connection proceeds
with no headers attached.  Returns the attached headers and whether a parse
failure was logged. -/
def discoverHeadersV2 : Option HeadersValue → Option JsVal × Bool
  | none => (none, false)
  | some h =>
    if h.truthy then
      match h with
      | .str _ pr =>
        match pr with
        | .ok v => (some v, false)
        | .error _ => (none, true)
      | .obj v => (some v, false)
    else (none, false)

/-- The first `execute` variant as a whole: header processing runs before the
EventSource is created, and a throw there rejects the returned promise
immediately (so no connection is ever opened); otherwise the discovery
machine runs. -/
def runDiscoverV1 (sseTimeout : Option Int) (headers : Option HeadersValue)
    (toolType : String) (evs : List Ev) : Except String DiscoverState :=
  match discoverHeadersV1 headers with
  | .error m => .error m
  | .ok _ => .ok (runDiscover sseTimeout toolType evs)

/-- Connection Configuration record (the `McpClientApiCredentials`
interface). -/
structure Credentials where
  sseUrl : String
  sseTimeout : Option Int
  messageEndpoint : String
  headers : Option HeadersValue

/-- Fields contributed by an object spread `...v` in an object literal:
objects contribute their entries, arrays and strings their indexed elements,
primitives nothing. -/
def JsVal.spreadFields : JsVal → List (String × JsVal)
  | .obj fs => fs
  | .arr xs => xs.enum.map (fun p => (toString p.1, p.2))
  | .str s => s.toList.enum.map (fun p => (toString p.1, JsVal.str (String.singleton p.2)))
  | _ => []

/-- Assignment of key `k` in an object under construction: overwrite the
value in place when the key exists, append otherwise. -/
def setKey (fs : List (String × JsVal)) (k : String) (v : JsVal) : List (String × JsVal) :=
  if fs.any (fun p => p.1 == k) then
    fs.map (fun p => if p.1 == k then (p.1, v) else p)
  else fs ++ [(k, v)]

/-- Object-literal spread: the entries of `extra` applied on top of `base`
in order (later entries overwrite earlier values with the same key). -/
def spreadInto (base : List (String × JsVal)) : List (String × JsVal) → List (String × JsVal)
  | [] => base
  | p :: rest => spreadInto (setKey base p.1 p.2) rest

/-- The headers expression of `axiosConfig` (source line 247): falsy headers
contribute an empty object, a string value is `JSON.parse`d (a failure
propagates out of `executeToolCall` uncaught), and the result is spread. -/
def invokeHeaderFields : Option HeadersValue → Except String (List (String × JsVal))
  | none => .ok []
  | some h =>
    if h.truthy then
      match h with
      | .str _ pr =>
        match pr with
        | .ok v => .ok v.spreadFields
        | .error m => .error m
      | .obj v => .ok v.spreadFields
    else .ok []

/-- An HTTP POST request as handed to `axios.post`. -/
structure HttpRequest where
  url : String
  body : JsVal
  headers : List (String × JsVal)

/-- The error value axios rejects with: an optional `response` object (with
`data`, `status`, `statusText` fields) and the transport-level `message`. -/
structure AxiosError where
  response : JsVal
  message : String

/-- Outcome of `axios.post` as seen by the caller. -/
inductive AxiosResult where
  | success (data : JsVal)
  | failure (e : AxiosError)

/-- Classification of `executeToolCall` failures by their throw site:
argument validation (lines 225-230), an uncaught header `JSON.parse` throw
(line 247), and the catch block (line 277). -/
inductive InvokeError where
  | invalidArgument (msg : String)
  | headerParse (msg : String)
  | toolCallFailed (msg : String)

/-- Error-message derivation of the `executeToolCall` catch block (source
lines 268-275). -/
def toolCallErrorMessage (error : AxiosError) : String :=
  let m := (error.response.propOr "data").propOr "message"
  if m.truthy then
    "Tool call failed: " ++ m.toDisplayString
  else if (error.response.propOr "statusText").truthy then
    "Tool call failed: " ++ (error.response.propOr "status").toDisplayString ++ " "
      ++ (error.response.propOr "statusText").toDisplayString
  else
    "Tool call failed: " ++ error.message

/-- Modelled from the spec: the failure-classification rule as §4.2 words it
(the `message` field of the body is used whenever PRESENT; the status line is
used when both status and statusText are PRESENT), stated for comparison with
the implemented rule `toolCallErrorMessage`. -/
def specToolCallErrorMessage (error : AxiosError) : String :=
  let data := error.response.propOr "data"
  match data with
  | .obj fs =>
    match fs.lookup "message" with
    | some m => "Tool call failed: " ++ m.toDisplayString
    | none => specStatusLine error
  | _ => specStatusLine error
where
  specStatusLine (error : AxiosError) : String :=
    match error.response with
    | .obj fs =>
      match fs.lookup "status", fs.lookup "statusText" with
      | some st, some stt => "Tool call failed: " ++ st.toDisplayString ++ " " ++ stt.toDisplayString
      | _, _ => "Tool call failed: " ++ error.message
    | _ => "Tool call failed: " ++ error.message

/-- The `executeToolCall` method (source lines 210-279): validation, payload
and header construction, one `axios.post` against the given server behaviour.
Returns the outcome and the list of HTTP POST requests issued. -/
def executeToolCall (toolName : JsVal) (parameters : JsVal) (creds : Credentials)
    (server : HttpRequest → AxiosResult) : Except InvokeError JsVal × List HttpRequest :=
  if !toolName.truthy || toolName.typeofJs != "string" then
    (.error (.invalidArgument "Tool name is required and must be a string."), [])
  else if !parameters.truthy || parameters.typeofJs != "object" then
    (.error (.invalidArgument "Tool parameters are required and must be an object."), [])
  else
    let payload : JsVal := .obj [("toolCall", .obj [("toolName", toolName), ("parameters", parameters)])]
    match invokeHeaderFields creds.headers with
    | .error m => (.error (.headerParse m), [])
    | .ok callerFields =>
      let hdrs := spreadInto [("Content-Type", JsVal.str "application/json")] callerFields
      let req : HttpRequest := { url := creds.messageEndpoint, body := payload, headers := hdrs }
      match server req with
      | .success data => (.ok data, [req])
      | .failure e => (.error (.toolCallFailed (toolCallErrorMessage e)), [req])

/-! ## Helper definitions and lemmas -/

/-- Whether a tool definition's name contains the filter string as a
case-sensitive substring (false when the name is not a string). -/
def nameContainsB (t : ToolDefinition) (f : String) : Bool :=
  match t.name with
  | .str s => charsContain f.toList s.toList
  | _ => false

/-- Decidable well-formedness of a `tools` payload: the payload parses and
the result is a mapping containing an array under the key `tools`. -/
def wellFormedPayloadB : Except String JsVal → Bool
  | .ok (.obj fs) =>
    match fs.lookup "tools" with
    | some (.arr _) => true
    | _ => false
  | _ => false

theorem charsContain_iff (needle hay : List Char) :
    charsContain needle hay = true ↔ needle <:+: hay := by
  induction hay with
  | nil => simp [charsContain, List.isEmpty_iff, List.infix_nil]
  | cons c rest ih =>
    simp only [charsContain, Bool.or_eq_true, List.isPrefixOf_iff_prefix, ih,
      List.infix_cons_iff]

theorem charsContain_nil (hay : List Char) : charsContain [] hay = true := by
  induction hay with
  | nil => rfl
  | cons c rest ih => simp [charsContain, ih]

theorem mapTool_eq_pure (tool : JsVal) (h1 : tool ≠ .null) (h2 : tool ≠ .undefined) :
    mapTool tool = .ok (mapToolPure tool) := by
  cases tool with
  | null => exact absurd rfl h1
  | undefined => exact absurd rfl h2
  | bool b => rfl
  | num n => rfl
  | str s => rfl
  | arr xs => rfl
  | obj fs => rfl

theorem okBind {ε α β : Type} (a : α) (f : α → Except ε β) :
    (Except.ok a : Except ε α) >>= f = f a := rfl

theorem errBind {ε α β : Type} (e : ε) (f : α → Except ε β) :
    (Except.error e : Except ε α) >>= f = Except.error e := rfl

theorem mapToolsE_eq (xs : List JsVal) (h : ∀ x ∈ xs, x ≠ .null ∧ x ≠ .undefined) :
    mapToolsE xs = .ok (xs.map mapToolPure) := by
  induction xs with
  | nil => rfl
  | cons x rest ih =>
    have hx := h x (List.mem_cons_self x rest)
    have hrest := ih (fun y hy => h y (List.mem_cons_of_mem x hy))
    simp only [mapToolsE, mapTool_eq_pure x hx.1 hx.2, hrest, okBind, List.map_cons]
    rfl

theorem filterToolsE_eq (f : String) (ts : List ToolDefinition)
    (h : ∀ t ∈ ts, ∃ s, t.name = .str s) :
    filterToolsE f ts = .ok (ts.filter (fun t => nameContainsB t f)) := by
  induction ts with
  | nil => rfl
  | cons t rest ih =>
    obtain ⟨s, hs⟩ := h t (List.mem_cons_self t rest)
    have hrest := ih (fun u hu => h u (List.mem_cons_of_mem t hu))
    have hinc : jsIncludes t.name f = .ok (nameContainsB t f) := by
      simp [jsIncludes, hs, nameContainsB]
    simp only [filterToolsE, hinc, hrest, okBind, List.filter_cons]
    by_cases hb : nameContainsB t f = true
    · simp only [hb, if_true]
      rfl
    · simp only [Bool.not_eq_true] at hb
      simp only [hb, if_false]
      rfl

theorem processTools_ok (toolType : String) (fs : List (String × JsVal)) (xs : List JsVal)
    (hl : fs.lookup "tools" = some (.arr xs))
    (hx : ∀ x ∈ xs, x ≠ .null ∧ x ≠ .undefined) :
    processTools toolType (.ok (.obj fs)) =
      (if toolType != "all" then
        filterToolsE toolType (xs.map mapToolPure)
      else .ok (xs.map mapToolPure)) := by
  have h1 : JsVal.getProp (JsVal.obj fs) "tools" = .ok (JsVal.arr xs) := by
    simp [JsVal.getProp, hl]
  simp only [processTools, okBind, h1, JsVal.truthy, JsVal.isArrayJs, JsVal.elems,
    mapToolsE_eq xs hx, Bool.not_true, Bool.or_self, Bool.false_or, if_false]
  rfl

theorem step_settled_preserved (sseT : Option Int) (tt : String) (st : DiscoverState)
    (s : Settlement) (hs : st.settled = some s) (e : Ev) :
    (step sseT tt st e).settled = some s := by
  cases e with
  | timerFired =>
    simp only [step]
    split
    · simp [DiscoverState.settle, DiscoverState.closeES, hs]
    · exact hs
  | onOpen =>
    simp only [step]
    split
    · exact hs
    · exact hs
  | onError msg => simp [step, DiscoverState.settle, DiscoverState.closeES, hs]
  | toolsEvent data =>
    simp only [step]
    split
    · simp [DiscoverState.settle, DiscoverState.closeES, hs]
    · simp [DiscoverState.settle, DiscoverState.closeES, hs]

theorem foldl_settled_preserved (sseT : Option Int) (tt : String) (st : DiscoverState)
    (s : Settlement) (hs : st.settled = some s) (evs : List Ev) :
    (evs.foldl (step sseT tt) st).settled = some s := by
  induction evs generalizing st with
  | nil => exact hs
  | cons e rest ih =>
    exact ih (step sseT tt st e) (step_settled_preserved sseT tt st s hs e)

theorem step_timerArmed_const (sseT : Option Int) (tt : String) (st : DiscoverState) (e : Ev) :
    (step sseT tt st e).timerArmed = st.timerArmed := by
  cases e with
  | timerFired =>
    simp only [step]
    split
    · simp only [DiscoverState.settle, DiscoverState.closeES]
      split <;> rfl
    · rfl
  | onOpen =>
    simp only [step]
    split <;> rfl
  | onError msg =>
    simp only [step, DiscoverState.settle, DiscoverState.closeES]
    split <;> rfl
  | toolsEvent data =>
    simp only [step]
    split <;> (simp only [DiscoverState.settle, DiscoverState.closeES]; split <;> rfl)

theorem step_cancelled_mono (sseT : Option Int) (tt : String) (st : DiscoverState)
    (hc : st.timerCancelled = true) (e : Ev) :
    (step sseT tt st e).timerCancelled = true := by
  cases e with
  | timerFired => simp [step, hc]
  | onOpen =>
    simp only [step]
    split
    · rfl
    · exact hc
  | onError msg =>
    simp only [step, DiscoverState.settle, DiscoverState.closeES]
    split <;> exact hc
  | toolsEvent data =>
    simp only [step]
    split <;> (simp only [DiscoverState.settle, DiscoverState.closeES]; split <;> exact hc)

/-- The only settlement a step can introduce at the timer callback is the
timeout; every other callback introduces a non-timeout settlement or keeps
the state.  Hence with a cancelled timer, no timeout can ever appear. -/
theorem foldl_no_timeout_of_cancelled (sseT : Option Int) (tt : String) (st : DiscoverState)
    (hc : st.timerCancelled = true) (hs : ∀ m, st.settled ≠ some (.timedOut m))
    (evs : List Ev) :
    ∀ m, (evs.foldl (step sseT tt) st).settled ≠ some (.timedOut m) := by
  induction evs generalizing st with
  | nil => exact hs
  | cons e rest ih =>
    refine ih (step sseT tt st e) (step_cancelled_mono sseT tt st hc e) ?_
    intro m
    cases e with
    | timerFired => simp [step, hc]; exact hs m
    | onOpen =>
      simp only [step]
      split
      · exact hs m
      · exact hs m
    | onError msg =>
      simp only [step, DiscoverState.settle, DiscoverState.closeES]
      split
      · next s heq => simpa [heq] using hs m
      · simp
    | toolsEvent data =>
      simp only [step]
      split <;>
        (simp only [DiscoverState.settle, DiscoverState.closeES]
         split
         · next s heq => simpa [heq] using hs m
         · simp)

/-- With no installed timer, no timeout settlement can ever appear. -/
theorem foldl_no_timeout_of_unarmed (sseT : Option Int) (tt : String) (st : DiscoverState)
    (ha : st.timerArmed = false) (hs : ∀ m, st.settled ≠ some (.timedOut m))
    (evs : List Ev) :
    ∀ m, (evs.foldl (step sseT tt) st).settled ≠ some (.timedOut m) := by
  induction evs generalizing st with
  | nil => exact hs
  | cons e rest ih =>
    refine ih (step sseT tt st e) ?_ ?_
    · rw [step_timerArmed_const]; exact ha
    · intro m
      cases e with
      | timerFired => simp [step, ha]; exact hs m
      | onOpen =>
        simp only [step]
        split
        · exact hs m
        · exact hs m
      | onError msg =>
        simp only [step, DiscoverState.settle, DiscoverState.closeES]
        split
        · next s heq => simpa [heq] using hs m
        · simp
      | toolsEvent data =>
        simp only [step]
        split <;>
          (simp only [DiscoverState.settle, DiscoverState.closeES]
           split
           · next s heq => simpa [heq] using hs m
           · simp)

/-- Only `onerror` and `tools` callbacks can settle an unarmed call: with no
timer installed and none of those events, the promise stays pending. -/
theorem foldl_pending_of_unarmed (sseT : Option Int) (tt : String) (st : DiscoverState)
    (ha : st.timerArmed = false) (hs : st.settled = none)
    (evs : List Ev) (he : ∀ msg, Ev.onError msg ∉ evs) (htl : ∀ d, Ev.toolsEvent d ∉ evs) :
    (evs.foldl (step sseT tt) st).settled = none := by
  induction evs generalizing st with
  | nil => exact hs
  | cons e rest ih =>
    have harm : (step sseT tt st e).timerArmed = false := by
      rw [step_timerArmed_const]; exact ha
    have hsettled : (step sseT tt st e).settled = none := by
      cases e with
      | timerFired => simp [step, ha]; exact hs
      | onOpen =>
        simp only [step]
        split
        · exact hs
        · exact hs
      | onError msg => exact absurd (List.mem_cons_self _ _) (fun h => he msg h)
      | toolsEvent data => exact absurd (List.mem_cons_self _ _) (fun h => htl data h)
    exact ih (step sseT tt st e) harm hsettled
      (fun msg h => he msg (List.mem_cons_of_mem e h))
      (fun d h => htl d (List.mem_cons_of_mem e h))

/-- The timer callback is the only one producing a timeout settlement: a run
containing no timer event never settles with a timeout. -/
theorem foldl_no_timeout_of_no_timer_event (sseT : Option Int) (tt : String)
    (st : DiscoverState) (hs : ∀ m, st.settled ≠ some (.timedOut m))
    (evs : List Ev) (hno : Ev.timerFired ∉ evs) :
    ∀ m, (evs.foldl (step sseT tt) st).settled ≠ some (.timedOut m) := by
  induction evs generalizing st with
  | nil => exact hs
  | cons e rest ih =>
    have hno' : Ev.timerFired ∉ rest := fun h => hno (List.mem_cons_of_mem e h)
    refine ih (step sseT tt st e) ?_ hno'
    intro m
    cases e with
    | timerFired => exact absurd (List.mem_cons_self _ _) hno
    | onOpen =>
      simp only [step]
      split
      · exact hs m
      · exact hs m
    | onError msg =>
      simp only [step, DiscoverState.settle, DiscoverState.closeES]
      split
      · next s heq => simpa [heq] using hs m
      · simp
    | toolsEvent data =>
      simp only [step]
      split <;>
        (simp only [DiscoverState.settle, DiscoverState.closeES]
         split
         · next s heq => simpa [heq] using hs m
         · simp)

/-- After `onopen` runs on an armed call, the timer is cancelled. -/
theorem foldl_cancelled_after_onOpen (sseT : Option Int) (tt : String) (st : DiscoverState)
    (ha : st.timerArmed = true) :
    (step sseT tt st Ev.onOpen).timerCancelled = true := by
  simp [step, ha]

theorem processTools_throws_of_not_array (toolType : String) (fs : List (String × JsVal))
    (t : JsVal) (hl : fs.lookup "tools" = some t) (ht : t.isArrayJs = false) :
    processTools toolType (.ok (.obj fs))
      = .error "Invalid tools data: missing or invalid tools array" := by
  have h1 : JsVal.getProp (.obj fs) "tools" = .ok t := by simp [JsVal.getProp, hl]
  simp only [processTools, okBind, h1, ht, Bool.not_false, Bool.or_true, if_true]
  rfl

theorem processTools_error_of_malformed (toolType : String) (data : Except String JsVal)
    (h : wellFormedPayloadB data = false) :
    ∃ msg, processTools toolType data = .error msg := by
  cases data with
  | error m => exact ⟨m, rfl⟩
  | ok v =>
    cases v with
    | undefined => exact ⟨_, rfl⟩
    | null => exact ⟨_, rfl⟩
    | bool b =>
      refine ⟨"Invalid tools data: missing or invalid tools array", ?_⟩
      simp only [processTools, okBind, JsVal.getProp, JsVal.truthy, JsVal.isArrayJs,
        Bool.not_false, Bool.or_true, if_true]
      rfl
    | num n =>
      refine ⟨"Invalid tools data: missing or invalid tools array", ?_⟩
      simp only [processTools, okBind, JsVal.getProp, JsVal.truthy, JsVal.isArrayJs,
        Bool.not_false, Bool.or_true, if_true]
      rfl
    | str s =>
      refine ⟨"Invalid tools data: missing or invalid tools array", ?_⟩
      simp only [processTools, okBind, JsVal.getProp, JsVal.truthy, JsVal.isArrayJs,
        Bool.not_false, Bool.or_true, if_true]
      rfl
    | arr xs =>
      refine ⟨"Invalid tools data: missing or invalid tools array", ?_⟩
      simp only [processTools, okBind, JsVal.getProp, JsVal.truthy, JsVal.isArrayJs,
        Bool.not_false, Bool.or_true, if_true]
      rfl
    | obj fs =>
      cases hl : fs.lookup "tools" with
      | none =>
        refine ⟨"Invalid tools data: missing or invalid tools array", ?_⟩
        have h1 : JsVal.getProp (.obj fs) "tools" = .ok .undefined := by
          simp [JsVal.getProp, hl]
        simp only [processTools, okBind, h1, JsVal.truthy, JsVal.isArrayJs,
          Bool.not_false, Bool.true_or, if_true]
        rfl
      | some t =>
        cases t with
        | arr xs =>
          exfalso
          simp [wellFormedPayloadB, hl] at h
        | undefined =>
          exact ⟨_, processTools_throws_of_not_array toolType fs _ hl rfl⟩
        | null =>
          exact ⟨_, processTools_throws_of_not_array toolType fs _ hl rfl⟩
        | bool b =>
          exact ⟨_, processTools_throws_of_not_array toolType fs _ hl rfl⟩
        | num n =>
          exact ⟨_, processTools_throws_of_not_array toolType fs _ hl rfl⟩
        | str s =>
          exact ⟨_, processTools_throws_of_not_array toolType fs _ hl rfl⟩
        | obj gs =>
          exact ⟨_, processTools_throws_of_not_array toolType fs _ hl rfl⟩

/-! ## Claim theorems -/

/-- C1: for every `tools` event payload, if JSON parsing fails or the parsed
value is not a mapping containing an array under the key `tools`, the
discover call (run on the canonical open-then-tools trace) rejects with the
Malformed-Payload error of the listener's catch block, `eventSource.close()`
is called exactly once, and no tool list — not even a partial one — is
resolved. -/
theorem C1_malformed_tools_payload (sseT : Option Int) (toolType : String)
    (data : Except String JsVal) (h : wellFormedPayloadB data = false) :
    (∃ msg, (runDiscover sseT toolType [Ev.onOpen, Ev.toolsEvent data]).settled
        = some (Settlement.eventError ("Failed to process tools event: " ++ msg)))
    ∧ (runDiscover sseT toolType [Ev.onOpen, Ev.toolsEvent data]).closeCalls = 1
    ∧ ∀ ts, (runDiscover sseT toolType [Ev.onOpen, Ev.toolsEvent data]).settled
        ≠ some (Settlement.resolved ts) := by
  obtain ⟨msg, hm⟩ := processTools_error_of_malformed toolType data h
  have h1 : (step sseT toolType (initState sseT) Ev.onOpen).settled = none := by
    simp only [step]
    split <;> rfl
  have h2 : (step sseT toolType (initState sseT) Ev.onOpen).closeCalls = 0 := by
    simp only [step]
    split <;> rfl
  have hfin : runDiscover sseT toolType [Ev.onOpen, Ev.toolsEvent data]
      = (step sseT toolType (initState sseT) Ev.onOpen).closeES.settle
          (.eventError ("Failed to process tools event: " ++ msg)) := by
    simp only [runDiscover, List.foldl, step, hm]
  refine ⟨⟨msg, ?_⟩, ?_, ?_⟩
  · rw [hfin]
    simp [DiscoverState.settle, DiscoverState.closeES, h1]
  · rw [hfin]
    simp [DiscoverState.settle, DiscoverState.closeES, h1, h2]
  · intro ts
    rw [hfin]
    simp [DiscoverState.settle, DiscoverState.closeES, h1]

/-- Witness for C1 at the spec's own example payload, a mapping with no
`tools` key. -/
theorem C1_malformed_tools_payload_witness :
    wellFormedPayloadB (Except.ok (JsVal.obj [("foo", JsVal.num 1)])) = false
    ∧ ((∃ msg, (runDiscover (some 1000) "all"
          [Ev.onOpen, Ev.toolsEvent (Except.ok (JsVal.obj [("foo", JsVal.num 1)]))]).settled
          = some (Settlement.eventError ("Failed to process tools event: " ++ msg)))
      ∧ (runDiscover (some 1000) "all"
          [Ev.onOpen, Ev.toolsEvent (Except.ok (JsVal.obj [("foo", JsVal.num 1)]))]).closeCalls = 1
      ∧ ∀ ts, (runDiscover (some 1000) "all"
          [Ev.onOpen, Ev.toolsEvent (Except.ok (JsVal.obj [("foo", JsVal.num 1)]))]).settled
          ≠ some (Settlement.resolved ts)) :=
  ⟨rfl, C1_malformed_tools_payload (some 1000) "all"
    (Except.ok (JsVal.obj [("foo", JsVal.num 1)])) rfl⟩

/-- C2: for a valid catalog and a filter string other than `all`, the
listener resolves with exactly the mapped Tool Definitions whose `name`
contains the filter as a case-sensitive substring (simple containment), in
the server-given relative order (the result is a sublist of the mapped
catalog). -/
theorem C2_filter_is_substring_containment (f : String) (hf : f ≠ "all")
    (fs : List (String × JsVal)) (xs : List JsVal)
    (hl : fs.lookup "tools" = some (.arr xs))
    (hx : ∀ x ∈ xs, x ≠ JsVal.null ∧ x ≠ JsVal.undefined)
    (hn : ∀ x ∈ xs, ∃ s, (mapToolPure x).name = JsVal.str s) :
    processTools f (.ok (.obj fs))
        = .ok ((xs.map mapToolPure).filter (fun t => nameContainsB t f))
    ∧ ((xs.map mapToolPure).filter (fun t => nameContainsB t f)).Sublist (xs.map mapToolPure)
    ∧ ∀ t, t ∈ (xs.map mapToolPure).filter (fun t => nameContainsB t f)
        ↔ (t ∈ xs.map mapToolPure ∧ ∃ s, t.name = JsVal.str s ∧ f.toList <:+: s.toList) := by
  have hmap : ∀ t ∈ xs.map mapToolPure, ∃ s, t.name = JsVal.str s := by
    intro t ht
    obtain ⟨x, hxmem, rfl⟩ := List.mem_map.mp ht
    exact hn x hxmem
  have hb : (f != "all") = true := bne_iff_ne.mpr hf
  have heq := processTools_ok f fs xs hl hx
  rw [if_pos hb, filterToolsE_eq f _ hmap] at heq
  refine ⟨heq, List.filter_sublist _, ?_⟩
  intro t
  rw [List.mem_filter]
  constructor
  · rintro ⟨htm, hcb⟩
    obtain ⟨s, hs⟩ := hmap t htm
    refine ⟨htm, s, hs, ?_⟩
    simp only [nameContainsB, hs] at hcb
    exact (charsContain_iff _ _).mp hcb
  · rintro ⟨htm, s, hs, hinf⟩
    refine ⟨htm, ?_⟩
    simp only [nameContainsB, hs]
    exact (charsContain_iff _ _).mpr hinf

/-- Catalog elements used by the C2 witness: the spec's round-trip example
tool and one non-matching tool. -/
def exTool1 : JsVal :=
  .obj [("name", .str "search_tool_A"), ("description", .str "d"),
    ("parameters", .obj [("q", .obj [("type", .str "string"), ("description", .str "query")])])]

def exTool2 : JsVal :=
  .obj [("name", .str "update_tool_B"), ("description", .str "e"), ("parameters", .obj [])]

/-- Witness for C2 at the spec's round-trip example catalog. -/
theorem C2_filter_is_substring_containment_witness :
    processTools "search_tool" (.ok (.obj [("tools", .arr [exTool1, exTool2])]))
      = .ok (([exTool1, exTool2].map mapToolPure).filter
          (fun t => nameContainsB t "search_tool")) :=
  (C2_filter_is_substring_containment "search_tool" (by decide)
    [("tools", .arr [exTool1, exTool2])] [exTool1, exTool2] rfl
    (by
      intro x hx
      simp only [List.mem_cons, List.not_mem_nil, or_false] at hx
      rcases hx with h | h <;> subst h <;> exact ⟨by simp [exTool1, exTool2], by simp [exTool1, exTool2]⟩)
    (by
      intro x hx
      simp only [List.mem_cons, List.not_mem_nil, or_false] at hx
      rcases hx with h | h <;> subst h
      · exact ⟨"search_tool_A", rfl⟩
      · exact ⟨"update_tool_B", rfl⟩)).1

/-- C8: with filter value `all` the listener resolves with every mapped Tool
Definition of a valid catalog, in server-given order: the result is exactly
the element-wise mapped catalog, of the same length, with the i-th result
coming from the i-th catalog entry — no deduplication, no sorting, no
dropping. -/
theorem C8_all_is_identity (fs : List (String × JsVal)) (xs : List JsVal)
    (hl : fs.lookup "tools" = some (.arr xs))
    (hx : ∀ x ∈ xs, ∃ gs, x = JsVal.obj gs) :
    processTools "all" (.ok (.obj fs)) = .ok (xs.map mapToolPure)
    ∧ (xs.map mapToolPure).length = xs.length
    ∧ ∀ i : Fin xs.length,
        (xs.map mapToolPure).get (Fin.cast (List.length_map xs mapToolPure).symm i)
          = mapToolPure (xs.get i) := by
  have hx' : ∀ x ∈ xs, x ≠ JsVal.null ∧ x ≠ JsVal.undefined := by
    intro x hmem
    obtain ⟨gs, rfl⟩ := hx x hmem
    exact ⟨by simp, by simp⟩
  have heq := processTools_ok "all" fs xs hl hx'
  rw [if_neg (by simp)] at heq
  refine ⟨heq, List.length_map xs mapToolPure, ?_⟩
  intro i
  simp [List.get_eq_getElem, List.getElem_map]

/-- Duplicate catalog entry used by the C8 witness (checking that no
deduplication happens). -/
def dupTool : JsVal :=
  .obj [("name", .str "a"), ("description", .str "d"), ("parameters", .obj [])]

/-- Witness for C8 on a two-element catalog with duplicate entries. -/
theorem C8_all_is_identity_witness :
    processTools "all" (.ok (.obj [("tools", .arr [dupTool, dupTool])]))
      = .ok ([dupTool, dupTool].map mapToolPure) :=
  (C8_all_is_identity [("tools", .arr [dupTool, dupTool])] [dupTool, dupTool] rfl
    (by
      intro x hx
      simp only [List.mem_cons, List.not_mem_nil, or_false] at hx
      rcases hx with h | h <;> exact ⟨_, h⟩)).1

/-- C10: the empty filter string takes the filtering branch (it is not the
`all` sentinel) yet behaves exactly like `all`: every tool name contains the
empty string, so the full mapped catalog is returned unchanged. -/
theorem C10_empty_filter_behaves_like_all (fs : List (String × JsVal)) (xs : List JsVal)
    (hl : fs.lookup "tools" = some (.arr xs))
    (hx : ∀ x ∈ xs, x ≠ JsVal.null ∧ x ≠ JsVal.undefined)
    (hn : ∀ x ∈ xs, ∃ s, (mapToolPure x).name = JsVal.str s) :
    processTools "" (.ok (.obj fs)) = processTools "all" (.ok (.obj fs))
    ∧ processTools "" (.ok (.obj fs)) = .ok (xs.map mapToolPure) := by
  have hmap : ∀ t ∈ xs.map mapToolPure, ∃ s, t.name = JsVal.str s := by
    intro t ht
    obtain ⟨x, hxmem, rfl⟩ := List.mem_map.mp ht
    exact hn x hxmem
  have h1 := processTools_ok "" fs xs hl hx
  have h2 := processTools_ok "all" fs xs hl hx
  rw [if_pos (by decide), filterToolsE_eq "" _ hmap] at h1
  rw [if_neg (by simp)] at h2
  have hall : (xs.map mapToolPure).filter (fun t => nameContainsB t "") = xs.map mapToolPure := by
    rw [List.filter_eq_self]
    intro t ht
    obtain ⟨s, hs⟩ := hmap t ht
    simp only [nameContainsB, hs]
    exact charsContain_nil s.toList
  rw [hall] at h1
  exact ⟨h1.trans h2.symm, h1⟩

/-- Catalog element used by the C10 witness. -/
def plainTool : JsVal :=
  .obj [("name", .str "search_tool_A"), ("description", .str "d"), ("parameters", .obj [])]

/-- Witness for C10 on a one-element catalog. -/
theorem C10_empty_filter_behaves_like_all_witness :
    processTools "" (.ok (.obj [("tools", .arr [plainTool])]))
      = processTools "all" (.ok (.obj [("tools", .arr [plainTool])])) :=
  (C10_empty_filter_behaves_like_all [("tools", .arr [plainTool])] [plainTool] rfl
    (by
      intro x hx
      simp only [List.mem_singleton] at hx
      subst hx
      exact ⟨by simp [plainTool], by simp [plainTool]⟩)
    (by
      intro x hx
      simp only [List.mem_singleton] at hx
      subst hx
      exact ⟨"search_tool_A", rfl⟩)).1

theorem foldl_timerArmed_const (sseT : Option Int) (tt : String) (st : DiscoverState)
    (evs : List Ev) : (evs.foldl (step sseT tt) st).timerArmed = st.timerArmed := by
  induction evs generalizing st with
  | nil => rfl
  | cons e rest ih => rw [List.foldl_cons, ih, step_timerArmed_const]

theorem step_onOpen_settled (sseT : Option Int) (tt : String) (st : DiscoverState) :
    (step sseT tt st Ev.onOpen).settled = st.settled := by
  simp only [step]
  split <;> rfl

/-- C4: with a positive configured timeout, if the connection opens before
the timer fires then the timer is cancelled and no Timeout settlement can
ever occur; the settlement, once made, is permanent under any further
events; and it is impossible for the same run to settle both with a Timeout
failure and with a successful catalog resolution. -/
theorem C4_open_before_timer_excludes_timeout (n : Int) (hn : 0 < n) (toolType : String)
    (evs1 evs2 : List Ev) (hno : Ev.timerFired ∉ evs1) :
    (∀ m, (runDiscover (some n) toolType (evs1 ++ Ev.onOpen :: evs2)).settled
        ≠ some (Settlement.timedOut m))
    ∧ (∀ s, (runDiscover (some n) toolType (evs1 ++ Ev.onOpen :: evs2)).settled = some s →
        ∀ more, (runDiscover (some n) toolType ((evs1 ++ Ev.onOpen :: evs2) ++ more)).settled
          = some s)
    ∧ ¬∃ ts m, (runDiscover (some n) toolType (evs1 ++ Ev.onOpen :: evs2)).settled
          = some (Settlement.resolved ts)
        ∧ (runDiscover (some n) toolType (evs1 ++ Ev.onOpen :: evs2)).settled
          = some (Settlement.timedOut m) := by
  have harm0 : (initState (some n)).timerArmed = true := by
    simp [initState, timerArmedFor, bne_iff_ne, hn.ne']
  have hsplit : runDiscover (some n) toolType (evs1 ++ Ev.onOpen :: evs2)
      = evs2.foldl (step (some n) toolType)
          (step (some n) toolType (evs1.foldl (step (some n) toolType) (initState (some n)))
            Ev.onOpen) := by
    simp [runDiscover, List.foldl_append]
  have harm1 : (evs1.foldl (step (some n) toolType) (initState (some n))).timerArmed = true := by
    rw [foldl_timerArmed_const]
    exact harm0
  have hnt1 : ∀ m, (evs1.foldl (step (some n) toolType) (initState (some n))).settled
      ≠ some (Settlement.timedOut m) :=
    foldl_no_timeout_of_no_timer_event (some n) toolType (initState (some n))
      (by intro m; simp [initState]) evs1 hno
  have hcanc : (step (some n) toolType (evs1.foldl (step (some n) toolType) (initState (some n)))
      Ev.onOpen).timerCancelled = true :=
    foldl_cancelled_after_onOpen (some n) toolType _ harm1
  have hnt2 : ∀ m, (step (some n) toolType
      (evs1.foldl (step (some n) toolType) (initState (some n))) Ev.onOpen).settled
      ≠ some (Settlement.timedOut m) := by
    rw [step_onOpen_settled]
    exact hnt1
  have hmain : ∀ m, (runDiscover (some n) toolType (evs1 ++ Ev.onOpen :: evs2)).settled
      ≠ some (Settlement.timedOut m) := by
    rw [hsplit]
    exact foldl_no_timeout_of_cancelled (some n) toolType _ hcanc hnt2 evs2
  refine ⟨hmain, ?_, ?_⟩
  · intro s hs more
    have : runDiscover (some n) toolType ((evs1 ++ Ev.onOpen :: evs2) ++ more)
        = more.foldl (step (some n) toolType)
            (runDiscover (some n) toolType (evs1 ++ Ev.onOpen :: evs2)) := by
      simp [runDiscover, List.foldl_append]
    rw [this]
    exact foldl_settled_preserved (some n) toolType _ s hs more
  · rintro ⟨ts, m, h1, h2⟩
    exact hmain m h2

/-- Witness for C4: with a one-second timeout, after `onopen` the late timer
callback does not produce a timeout settlement. -/
theorem C4_open_before_timer_excludes_timeout_witness :
    0 < (1000 : Int)
    ∧ (runDiscover (some 1000) "all" ([] ++ Ev.onOpen :: [Ev.timerFired])).settled
        ≠ some (Settlement.timedOut (timeoutMsg 1000)) :=
  ⟨by decide,
   (C4_open_before_timer_excludes_timeout 1000 (by decide) "all" [] [Ev.timerFired]
      (by simp)).1 (timeoutMsg 1000)⟩

/-- C9: with `sseTimeout` absent or zero no timer is installed, the run can
never settle with a Timeout error, and with no transport-error and no
`tools` event in the run the promise stays pending (the call suspends
indefinitely). -/
theorem C9_no_timer_when_unconfigured (sseT : Option Int)
    (h : sseT = none ∨ sseT = some 0) (toolType : String) (evs : List Ev) :
    (initState sseT).timerArmed = false
    ∧ (∀ m, (runDiscover sseT toolType evs).settled ≠ some (Settlement.timedOut m))
    ∧ ((∀ msg, Ev.onError msg ∉ evs) → (∀ d, Ev.toolsEvent d ∉ evs) →
        (runDiscover sseT toolType evs).settled = none) := by
  have ha : (initState sseT).timerArmed = false := by
    rcases h with h | h <;> subst h <;> decide
  refine ⟨ha, ?_, ?_⟩
  · exact foldl_no_timeout_of_unarmed sseT toolType (initState sseT) ha
      (by intro m; simp [initState]) evs
  · intro he htl
    exact foldl_pending_of_unarmed sseT toolType (initState sseT) ha rfl evs he htl

/-- Witness for C9: with a zero timeout, a run with only open and timer
callbacks stays pending. -/
theorem C9_no_timer_when_unconfigured_witness :
    (initState (some 0)).timerArmed = false
    ∧ (runDiscover (some 0) "all" [Ev.onOpen, Ev.timerFired]).settled = none :=
  ⟨(C9_no_timer_when_unconfigured (some 0) (Or.inr rfl) "all" [Ev.onOpen, Ev.timerFired]).1,
   (C9_no_timer_when_unconfigured (some 0) (Or.inr rfl) "all" [Ev.onOpen, Ev.timerFired]).2.2
     (by intro msg; simp) (by intro d; simp)⟩

theorem exec_bad_name (toolName parameters : JsVal) (creds : Credentials)
    (server : HttpRequest → AxiosResult)
    (hbad : (!toolName.truthy || toolName.typeofJs != "string") = true) :
    executeToolCall toolName parameters creds server
      = (.error (.invalidArgument "Tool name is required and must be a string."), []) := by
  simp [executeToolCall, hbad]

theorem exec_bad_params (toolName parameters : JsVal) (creds : Credentials)
    (server : HttpRequest → AxiosResult)
    (hgood : (!toolName.truthy || toolName.typeofJs != "string") = false)
    (hbad : (!parameters.truthy || parameters.typeofJs != "object") = true) :
    executeToolCall toolName parameters creds server
      = (.error (.invalidArgument "Tool parameters are required and must be an object."), []) := by
  simp [executeToolCall, hgood, hbad]

/-- Server stub that answers every POST with the body used in the spec's
round-trip example. -/
def okServer : HttpRequest → AxiosResult :=
  fun _ => .success (.obj [("result", .str "ok")])

/-- Connection configuration used by the invocation examples. -/
def creds0 : Credentials :=
  { sseUrl := "http://localhost/sse"
    sseTimeout := some 1000
    messageEndpoint := "http://localhost/message"
    headers := none }

/-- C3 counterexample: calling `executeToolCall` with `parameters` an array
(which the claim says must fail with Invalid-Argument and zero network
calls) passes validation — `typeof` of an array is `object` — so exactly one
HTTP POST is issued and the call succeeds. -/
theorem C3_counterexample_array_parameters :
    (executeToolCall (.str "doThing") (.arr []) creds0 okServer).2.length = 1
    ∧ (executeToolCall (.str "doThing") (.arr []) creds0 okServer).1
        = .ok (.obj [("result", .str "ok")]) :=
  ⟨rfl, rfl⟩

/-- C3 amended: if `toolName` is absent, empty or not a string, or if
`parameters` is absent, `null`, or a primitive (boolean, number or string) —
but not an array, which passes the `typeof` check — then `executeToolCall`
fails with an Invalid-Argument error and performs zero network calls. -/
theorem C3_invalid_arguments_no_network (toolName parameters : JsVal)
    (creds : Credentials) (server : HttpRequest → AxiosResult)
    (h : (∀ s, toolName ≠ JsVal.str s)
        ∨ toolName = JsVal.str ""
        ∨ parameters = JsVal.undefined ∨ parameters = JsVal.null
        ∨ (∃ b, parameters = JsVal.bool b) ∨ (∃ m, parameters = JsVal.num m)
        ∨ (∃ s, parameters = JsVal.str s)) :
    ∃ msg, executeToolCall toolName parameters creds server
        = (.error (.invalidArgument msg), []) := by
  by_cases hname : (!toolName.truthy || toolName.typeofJs != "string") = true
  · exact ⟨_, exec_bad_name toolName parameters creds server hname⟩
  · have hgood : (!toolName.truthy || toolName.typeofJs != "string") = false := by
      simpa using hname
    have hstr : ∃ s, toolName = JsVal.str s ∧ s ≠ "" := by
      cases toolName with
      | str s =>
        refine ⟨s, rfl, ?_⟩
        intro hs
        subst hs
        simp [JsVal.truthy] at hgood
      | undefined => simp [JsVal.truthy] at hgood
      | null => simp [JsVal.truthy] at hgood
      | bool b => simp [JsVal.typeofJs] at hgood
      | num m => simp [JsVal.typeofJs] at hgood
      | arr xs => simp [JsVal.typeofJs] at hgood
      | obj fs => simp [JsVal.typeofJs] at hgood
    obtain ⟨s, rfl, hs⟩ := hstr
    rcases h with h | h | h | h | ⟨b, h⟩ | ⟨m, h⟩ | ⟨s2, h⟩
    · exact absurd rfl (h s)
    · injection h with h
      exact absurd h hs
    all_goals subst h
    · exact ⟨_, exec_bad_params _ _ creds server hgood (by simp [JsVal.truthy])⟩
    · exact ⟨_, exec_bad_params _ _ creds server hgood (by simp [JsVal.truthy])⟩
    · exact ⟨_, exec_bad_params _ _ creds server hgood (by simp [JsVal.typeofJs])⟩
    · exact ⟨_, exec_bad_params _ _ creds server hgood (by simp [JsVal.typeofJs])⟩
    · exact ⟨_, exec_bad_params _ _ creds server hgood (by simp [JsVal.typeofJs])⟩

/-- Witness for the amended C3: the empty tool name fails with
Invalid-Argument and no POST request. -/
theorem C3_invalid_arguments_no_network_witness :
    ∃ msg, executeToolCall (.str "") (.obj []) creds0 okServer
        = (.error (.invalidArgument msg), []) :=
  C3_invalid_arguments_no_network (.str "") (.obj []) creds0 okServer (Or.inr (Or.inl rfl))

/-- C5 counterexample: in the first `execute` variant, a configured headers
string that fails to parse as JSON rejects the whole discover call with a
Failed-to-parse-headers error (the promise executor throws before the
EventSource is created), contradicting the claim that a header-parse failure
never fails the discovery operation. -/
theorem C5_counterexample_v1_header_failure_rejects :
    runDiscoverV1 (some 1000)
        (some (.str "not json" (.error "Unexpected token o in JSON at position 1")))
        "all" [Ev.onOpen]
      = .error "Failed to parse headers: Unexpected token o in JSON at position 1" := rfl

/-- C5 amended: only in the second `execute` variant is a header-parse
failure non-fatal — it is logged and the connection proceeds with no headers
attached; in the first variant the same failure rejects the discover call
with a Failed-to-parse-headers error. -/
theorem C5_header_failure_fatal_only_in_v1 (raw : String) (hraw : raw ≠ "") (m : String) :
    discoverHeadersV2 (some (.str raw (.error m))) = (none, true)
    ∧ discoverHeadersV1 (some (.str raw (.error m)))
        = .error ("Failed to parse headers: " ++ m) := by
  have ht : (HeadersValue.str raw (.error m)).truthy = true := by
    simp [HeadersValue.truthy, bne_iff_ne, hraw]
  constructor
  · simp [discoverHeadersV2, ht]
  · simp [discoverHeadersV1, ht]

/-- Witness for the amended C5 at a concrete unparseable headers string. -/
theorem C5_header_failure_fatal_only_in_v1_witness :
    discoverHeadersV2 (some (.str "not json" (.error "Unexpected token"))) = (none, true)
    ∧ discoverHeadersV1 (some (.str "not json" (.error "Unexpected token")))
        = .error ("Failed to parse headers: " ++ "Unexpected token") :=
  C5_header_failure_fatal_only_in_v1 "not json" (by decide) "Unexpected token"

/-- Error value of the C6 counterexample: the response body has a PRESENT
but empty `message` field, alongside an HTTP status and status text. -/
def c6Error : AxiosError :=
  { response := .obj [("data", .obj [("message", .str "")]),
      ("status", .num 500), ("statusText", .str "Internal Server Error")]
    message := "Request failed with status code 500" }

/-- C6 counterexample: the `message` field is present in the error body, yet
the implementation skips it — its check is truthiness, not presence — and
formats the status line instead; the spec-worded presence-priority rule
disagrees with the implemented rule at this input. -/
theorem C6_counterexample_empty_message_field :
    toolCallErrorMessage c6Error = "Tool call failed: 500 Internal Server Error"
    ∧ specToolCallErrorMessage c6Error = "Tool call failed: "
    ∧ toolCallErrorMessage c6Error ≠ specToolCallErrorMessage c6Error := by
  refine ⟨rfl, rfl, ?_⟩
  decide

/-- C6 amended: the Tool-Call-Failed message is derived in priority order
with truthiness (not presence) tests: the body's `message` field when truthy
(for strings: non-empty), otherwise the formatted status line when
`statusText` is truthy, otherwise the transport error's message. -/
theorem C6_message_priority_truthiness (e : AxiosError) :
    (∀ s, (e.response.propOr "data").propOr "message" = JsVal.str s → s ≠ "" →
        toolCallErrorMessage e = "Tool call failed: " ++ s)
    ∧ (((e.response.propOr "data").propOr "message").truthy = false →
        ∀ t, e.response.propOr "statusText" = JsVal.str t → t ≠ "" →
        toolCallErrorMessage e = "Tool call failed: "
          ++ (e.response.propOr "status").toDisplayString ++ " " ++ t)
    ∧ (((e.response.propOr "data").propOr "message").truthy = false →
        (e.response.propOr "statusText").truthy = false →
        toolCallErrorMessage e = "Tool call failed: " ++ e.message) := by
  refine ⟨?_, ?_, ?_⟩
  · intro s hsv hne
    have ht : (JsVal.str s).truthy = true := by
      simp [JsVal.truthy, bne_iff_ne, hne]
    simp [toolCallErrorMessage, hsv, ht, JsVal.toDisplayString]
  · intro hm t htv hne
    have ht : (JsVal.str t).truthy = true := by
      simp [JsVal.truthy, bne_iff_ne, hne]
    simp [toolCallErrorMessage, hm, htv, ht, JsVal.toDisplayString]
  · intro hm hst
    simp [toolCallErrorMessage, hm, hst]

/-- Error value of the C6 amended witness: the spec's own example of an HTTP
500 whose body carries `message : bad state`. -/
def c6Error2 : AxiosError :=
  { response := .obj [("data", .obj [("message", .str "bad state")]),
      ("status", .num 500), ("statusText", .str "Internal Server Error")]
    message := "Request failed with status code 500" }

/-- Witness for the amended C6: a truthy body message wins over the status
line. -/
theorem C6_message_priority_truthiness_witness :
    toolCallErrorMessage c6Error2 = "Tool call failed: " ++ "bad state" :=
  (C6_message_priority_truthiness c6Error2).1 "bad state" rfl (by decide)

theorem lookup_none_of_not_mem_keys (l : List (String × JsVal)) (k : String)
    (h : k ∉ l.map Prod.fst) : l.lookup k = none := by
  induction l with
  | nil => rfl
  | cons p rest ih =>
    have hk : k ≠ p.1 := by
      intro he
      exact h (by simp [he])
    have hrest : k ∉ rest.map Prod.fst := fun hm => h (by simp [hm])
    simp [List.lookup, beq_eq_false_iff_ne.mpr hk, ih hrest]

theorem lookup_cons_self (k : String) (v : JsVal) (l : List (String × JsVal)) :
    List.lookup k ((k, v) :: l) = some v := by
  simp [List.lookup]

theorem lookup_cons_ne (q k : String) (v : JsVal) (l : List (String × JsVal))
    (h : q ≠ k) : List.lookup q ((k, v) :: l) = List.lookup q l := by
  simp [List.lookup, beq_eq_false_iff_ne.mpr h]

theorem lookup_map_overwrite (fs : List (String × JsVal)) (k : String) (v : JsVal)
    (h : fs.any (fun p => p.1 == k) = true) :
    (fs.map (fun p => if p.1 == k then (p.1, v) else p)).lookup k = some v := by
  induction fs with
  | nil => simp at h
  | cons p rest ih =>
    rw [List.map_cons]
    by_cases hp : p.1 = k
    · rw [if_pos (beq_iff_eq.mpr hp), hp]
      exact lookup_cons_self k v _
    · have hp' : (p.1 == k) = false := beq_eq_false_iff_ne.mpr hp
      have hrest : rest.any (fun p => p.1 == k) = true := by
        simpa [List.any_cons, hp'] using h
      rw [if_neg (by simp [hp'])]
      exact (lookup_cons_ne k p.1 p.2 _ (Ne.symm hp)).trans (ih hrest)

theorem lookup_append_new (fs : List (String × JsVal)) (k : String) (v : JsVal)
    (h : fs.any (fun p => p.1 == k) = false) :
    (fs ++ [(k, v)]).lookup k = some v := by
  induction fs with
  | nil => exact lookup_cons_self k v []
  | cons p rest ih =>
    have hp : (p.1 == k) = false := by
      cases hb : (p.1 == k)
      · rfl
      · simp [List.any_cons, hb] at h
    have hrest : rest.any (fun p => p.1 == k) = false := by
      simpa [List.any_cons, hp] using h
    rw [List.cons_append]
    exact (lookup_cons_ne k p.1 p.2 _
      (Ne.symm (beq_eq_false_iff_ne.mp hp))).trans (ih hrest)

theorem lookup_setKey_self (fs : List (String × JsVal)) (k : String) (v : JsVal) :
    (setKey fs k v).lookup k = some v := by
  unfold setKey
  by_cases hany : fs.any (fun p => p.1 == k) = true
  · rw [if_pos hany]
    exact lookup_map_overwrite fs k v hany
  · have hany' : fs.any (fun p => p.1 == k) = false := by
      cases hb : fs.any (fun p => p.1 == k)
      · rfl
      · exact absurd hb hany
    rw [if_neg hany]
    exact lookup_append_new fs k v hany'

theorem lookup_setKey_other (fs : List (String × JsVal)) (k : String) (v : JsVal)
    (q : String) (hq : q ≠ k) : (setKey fs k v).lookup q = fs.lookup q := by
  unfold setKey
  by_cases hany : fs.any (fun p => p.1 == k) = true
  · rw [if_pos hany]
    clear hany
    induction fs with
    | nil => rfl
    | cons p rest ih =>
      rw [List.map_cons]
      by_cases hp : p.1 = k
      · have hqp : q ≠ p.1 := fun he => hq (he.trans hp)
        rw [if_pos (beq_iff_eq.mpr hp), lookup_cons_ne q p.1 v _ hqp,
          lookup_cons_ne q p.1 p.2 _ hqp]
        exact ih
      · have hp' : (p.1 == k) = false := beq_eq_false_iff_ne.mpr hp
        rw [if_neg (by simp [hp'])]
        by_cases hqp : q = p.1
        · rw [hqp]
          exact (lookup_cons_self p.1 p.2 _).trans (lookup_cons_self p.1 p.2 _).symm
        · rw [lookup_cons_ne q p.1 p.2 _ hqp, lookup_cons_ne q p.1 p.2 _ hqp]
          exact ih
  · rw [if_neg hany]
    clear hany
    induction fs with
    | nil =>
      rw [List.nil_append, lookup_cons_ne q k v [] hq]
    | cons p rest ih =>
      rw [List.cons_append]
      by_cases hqp : q = p.1
      · rw [hqp]
        exact (lookup_cons_self p.1 p.2 _).trans (lookup_cons_self p.1 p.2 _).symm
      · rw [lookup_cons_ne q p.1 p.2 _ hqp, lookup_cons_ne q p.1 p.2 _ hqp]
        exact ih

theorem lookup_spreadInto (extra : List (String × JsVal)) (base : List (String × JsVal))
    (k : String) (hnd : (extra.map Prod.fst).Nodup) :
    (spreadInto base extra).lookup k = (extra.lookup k).or (base.lookup k) := by
  induction extra generalizing base with
  | nil => simp [spreadInto]
  | cons p rest ih =>
    obtain ⟨k', v'⟩ := p
    have hnd' : (rest.map Prod.fst).Nodup := (List.nodup_cons.mp hnd).2
    have hknotin : k' ∉ rest.map Prod.fst := (List.nodup_cons.mp hnd).1
    rw [spreadInto, ih _ hnd']
    by_cases hk : k = k'
    · subst hk
      rw [lookup_none_of_not_mem_keys rest k hknotin, lookup_setKey_self]
      simp [List.lookup]
    · rw [lookup_setKey_other base k' v' k hk]
      have hk' : (k == k') = false := beq_eq_false_iff_ne.mpr hk
      simp [List.lookup, hk']

/-- C7: a valid invoke call issues exactly one HTTP POST; its body is
exactly the toolCall envelope around the given name and parameters; and the
request headers are the default Content-Type application/json with the
caller-supplied headers spread on top, so Content-Type resolves to the
caller's value when supplied and to the default otherwise. -/
theorem C7_payload_and_header_merge (s : String) (hs : s ≠ "")
    (paramFields : List (String × JsVal)) (callerFields : List (String × JsVal))
    (hnd : (callerFields.map Prod.fst).Nodup)
    (url0 : String) (endpoint : String) (sseT : Option Int)
    (server : HttpRequest → AxiosResult) :
    ∃ req : HttpRequest,
      (executeToolCall (.str s) (.obj paramFields)
          { sseUrl := url0, sseTimeout := sseT, messageEndpoint := endpoint,
            headers := some (.obj (.obj callerFields)) } server).2 = [req]
      ∧ req.url = endpoint
      ∧ req.body = .obj [("toolCall", .obj [("toolName", .str s),
          ("parameters", .obj paramFields)])]
      ∧ req.headers.lookup "Content-Type"
          = some ((callerFields.lookup "Content-Type").getD (.str "application/json")) := by
  have hc1 : (!(JsVal.str s).truthy || (JsVal.str s).typeofJs != "string") = false := by
    simp [JsVal.truthy, JsVal.typeofJs, bne_iff_ne, hs]
  have hc2 : (!(JsVal.obj paramFields).truthy
      || (JsVal.obj paramFields).typeofJs != "object") = false := by
    simp [JsVal.truthy, JsVal.typeofJs]
  have hh : invokeHeaderFields (some (.obj (.obj callerFields))) = .ok callerFields := by
    simp [invokeHeaderFields, HeadersValue.truthy, JsVal.truthy, JsVal.spreadFields]
  refine ⟨{ url := endpoint
            body := .obj [("toolCall", .obj [("toolName", .str s),
              ("parameters", .obj paramFields)])]
            headers := spreadInto [("Content-Type", JsVal.str "application/json")] callerFields },
    ?_, rfl, rfl, ?_⟩
  · simp only [executeToolCall, hc1, hc2, hh, Bool.false_eq_true, if_false]
    split <;> rfl
  · rw [lookup_spreadInto callerFields _ "Content-Type" hnd]
    rcases hl : callerFields.lookup "Content-Type" with _ | w
    · simp [List.lookup]
    · simp

/-- Witness for C7: a caller-supplied Content-Type overrides the default in
the issued request. -/
theorem C7_payload_and_header_merge_witness :
    ∃ req : HttpRequest,
      (executeToolCall (.str "doThing") (.obj [("x", JsVal.num 1)])
          { sseUrl := "http://localhost/sse", sseTimeout := some 1000,
            messageEndpoint := "http://localhost/message",
            headers := some (.obj (.obj [("Content-Type", JsVal.str "text/plain"),
              ("X-API-Key", JsVal.str "k")])) } okServer).2 = [req]
      ∧ req.url = "http://localhost/message"
      ∧ req.body = .obj [("toolCall", .obj [("toolName", .str "doThing"),
          ("parameters", .obj [("x", JsVal.num 1)])])]
      ∧ req.headers.lookup "Content-Type"
          = some (([("Content-Type", JsVal.str "text/plain"),
              ("X-API-Key", JsVal.str "k")].lookup "Content-Type").getD
                (.str "application/json")) :=
  C7_payload_and_header_merge "doThing" (by decide) [("x", JsVal.num 1)]
    [("Content-Type", JsVal.str "text/plain"), ("X-API-Key", JsVal.str "k")]
    (by simp) "http://localhost/sse" "http://localhost/message" (some 1000) okServer

end Mcp
